import Mathlib

/-!
Verification development for the music-stream repository.

The definitions below are a shallow embedding of the TypeScript sources:
* `Track`, `MusicCategory`, `PlayerStatus`, `Playlist` follow the model
  declarations in `track.model.ts`.
* The `EngineState` operations follow `AudioPlayerService`
  (`audio-player.service.ts`): each method is translated to a pure function
  on the engine state, modelling the synchronous net effect of the method
  body on the service's signals.  The browser audio element is abstracted
  to the `currentTime`/`duration` fields it feeds back into the signals.
* `Store` operations follow `StorageService` (`storage.service.ts`), with
  IndexedDB object stores modelled as lists of records keyed by `id`
  (`put` = upsert by id, `delete` = remove by id, `get` = first match).
* `LibState` operations follow `TrackService` (`track.service.ts`).

Numbers: JS numbers that hold times/durations are modelled as `Rat`,
counters as `Nat`, indexes as `Int` (JS code stores `-1` in them).
-/

/-- Model of `MusicCategory` enum from `track.model.ts`. -/
inductive MusicCategory where
  | pop | rock | rap | jazz | classical | electronic | hiphop
  | rnb | country | reggae | metal | blues | folk
deriving DecidableEq, Repr

/-- Model of `Track` interface from `track.model.ts`.  `addedDate` is the epoch
timestamp of the `Date` value; `fileUrl`/`coverImage` are the payload
references. -/
structure Track where
  id : String
  title : String
  artist : String
  description : Option String
  duration : Rat
  category : MusicCategory
  addedDate : Int
  fileUrl : String
  fileSize : Nat
  fileType : String
  coverImage : Option String
  coverColor : Option String
  plays : Nat
  likes : Nat
deriving DecidableEq, Repr

/-- Model of `PlayerStatus` union type from `track.model.ts`. -/
inductive PlayerStatus where
  | playing | paused | buffering | stopped | loading
deriving DecidableEq, Repr

/-- Model of `Playlist` interface from `track.model.ts`. -/
structure Playlist where
  id : String
  name : String
  description : Option String
  tracks : List Track
  coverImage : Option String
  createdDate : Int
  isPublic : Bool
deriving DecidableEq, Repr

/-- JS `array[i]` read for a possibly negative index: out-of-range reads
yield `undefined`, modelled as `none`. -/
def listGet (l : List Track) (i : Int) : Option Track :=
  if i < 0 then none else l[i.toNat]?

/-- JS `array.slice(0, e)` (negative `e` counts from the end). -/
def jsSliceEnd (l : List Track) (e : Int) : List Track :=
  if e < 0 then l.take ((l.length : Int) + e).toNat else l.take e.toNat

/-- JS `array.slice(b)` (negative `b` counts from the end). -/
def jsSliceFrom (l : List Track) (b : Int) : List Track :=
  if b < 0 then l.drop ((l.length : Int) + b).toNat else l.drop b.toNat

/-- JS `array.findIndex(t => t.id === id)`: first index whose `id` matches,
`-1` when absent. -/
def findIndexById (id : String) : List Track → Int
  | [] => -1
  | t :: ts =>
    if t.id = id then 0
    else
      let r := findIndexById id ts
      if r = -1 then -1 else r + 1

/-- The destructuring swap `[a[i], a[j]] = [a[j], a[i]]` used by
`shuffleQueue`; out-of-range indices leave the list unchanged (they never
occur in the Fisher–Yates loop). -/
def swapIdx {α : Type} (l : List α) (i j : Nat) : List α :=
  match l[i]?, l[j]? with
  | some a, some b => (l.set i b).set j a
  | _, _ => l

/-- The Fisher–Yates loop body of `AudioPlayerService.shuffleQueue`:
`for (i = length-1; i > 0; i--) { j = floor(random()*(i+1)); swap i j }`.
The random draws are abstracted into `rand`; `rand i % (i+1)` ranges over
exactly the values `floor(random()*(i+1))` can take. -/
def fyAux (rand : Nat → Nat) : Nat → List Track → List Track
  | 0, l => l
  | Nat.succ i, l => fyAux rand i (swapIdx l (i + 1) (rand (i + 1) % (i + 2)))

/-- The full shuffle of `AudioPlayerService.shuffleQueue` on a list. -/
def fyShuffle (rand : Nat → Nat) (l : List Track) : List Track :=
  fyAux rand (l.length - 1) l

/-- The signal state of `AudioPlayerService`.  `duration` stands for
`audioElement.duration` (0 when no valid media is bound, matching the JS
falsiness check on it). -/
structure EngineState where
  currentTrack : Option Track
  status : PlayerStatus
  currentTime : Rat
  duration : Rat
  volume : Rat
  isMuted : Bool
  queue : List Track
  currentIndex : Int
  isShuffled : Bool
  isRepeating : Bool
  originalQueue : List Track
  error : String
  isLoading : Bool
deriving DecidableEq, Repr

/-- Initial signal values of `AudioPlayerService` (class field
initialisers). -/
def initState : EngineState :=
  { currentTrack := none
    status := .stopped
    currentTime := 0
    duration := 0
    volume := 7 / 10
    isMuted := false
    queue := []
    currentIndex := -1
    isShuffled := false
    isRepeating := false
    originalQueue := []
    error := ""
    isLoading := false }

/-- Model of `hasNext` computed signal. -/
def hasNext (s : EngineState) : Bool :=
  s.isRepeating || decide (s.currentIndex < (s.queue.length : Int) - 1)

/-- Synchronous part of `AudioPlayerService.loadTrack(track)`: sets the
loading status, clears the error, publishes the track, rebinds the device
(setting its duration from the payload), and re-points `currentIndex` at
the track's position in the queue when it is found there. -/
def loadTrack (t : Track) (s : EngineState) : EngineState :=
  let s1 := { s with
    status := .loading
    error := ""
    isLoading := true
    currentTrack := some t
    duration := t.duration }
  let idx := findIndexById t.id s1.queue
  if idx ≠ -1 then { s1 with currentIndex := idx } else s1

/-- Model of `loadTrack` applied to a queue read that may be `undefined`; the
`undefined` case follows the `catch` branch of `loadTrack` (accessing
`track.fileUrl` throws before the device is touched). -/
def loadTrackOpt : Option Track → EngineState → EngineState
  | some t, s => loadTrack t s
  | none, s => { s with
      status := .stopped
      error := "Impossible de charger la piste"
      isLoading := false
      currentTrack := none }

/-- Model of `AudioPlayerService.play()` without a track argument: a no-op unless a
current track exists, in which case the status becomes `playing`. -/
def play (s : EngineState) : EngineState :=
  if s.currentTrack.isSome then { s with status := .playing } else s

/-- Model of `AudioPlayerService.stop()`. -/
def stop (s : EngineState) : EngineState :=
  { s with status := .stopped, currentTime := 0 }

/-- Model of `AudioPlayerService.seek(time)`: clamps into `[0, duration]`; guarded
by the truthiness of `audioElement.duration`. -/
def seek (time : Rat) (s : EngineState) : EngineState :=
  if s.duration ≠ 0 then
    { s with currentTime := max 0 (min time s.duration) }
  else s

/-- Model of `AudioPlayerService.next()`. -/
def next (s : EngineState) : EngineState :=
  if s.currentIndex < (s.queue.length : Int) - 1 then
    play { loadTrackOpt (listGet s.queue (s.currentIndex + 1)) s with
      currentIndex := s.currentIndex + 1 }
  else if s.isRepeating then
    play { loadTrackOpt (listGet s.queue 0) s with currentIndex := 0 }
  else s

/-- Model of `AudioPlayerService.previous()`. -/
def previous (s : EngineState) : EngineState :=
  if 3 < s.currentTime then
    seek 0 s
  else if 0 < s.currentIndex then
    play { loadTrackOpt (listGet s.queue (s.currentIndex - 1)) s with
      currentIndex := s.currentIndex - 1 }
  else s

/-- Model of `AudioPlayerService.shuffleQueue(tracks)`: shuffles the given list into
the live queue and re-points `currentIndex` at the current track's landing
position (found by id). -/
def shuffleQueue (rand : Nat → Nat) (tracks : List Track) (s : EngineState) :
    EngineState :=
  let shuffled := fyShuffle rand tracks
  let s1 := { s with queue := shuffled }
  match s1.currentTrack with
  | some ct =>
    let idx := findIndexById ct.id shuffled
    if idx ≠ -1 then { s1 with currentIndex := idx } else s1
  | none => s1

/-- Model of `AudioPlayerService.setQueue(tracks, startIndex)`. -/
def setQueue (rand : Nat → Nat) (tracks : List Track) (startIndex : Int)
    (s : EngineState) : EngineState :=
  let s1 := { s with originalQueue := tracks }
  let s2 :=
    if s1.isShuffled then shuffleQueue rand tracks s1
    else { s1 with queue := tracks }
  if 0 < tracks.length ∧ startIndex < (tracks.length : Int) then
    { loadTrackOpt (listGet tracks startIndex) s2 with
      currentIndex := startIndex }
  else s2

/-- Model of `AudioPlayerService.addToQueue(track, playNext)`. -/
def addToQueue (t : Track) (playNext : Bool) (s : EngineState) : EngineState :=
  let s1 :=
    if playNext then
      { s with queue :=
          jsSliceEnd s.queue (s.currentIndex + 1) ++
            t :: jsSliceFrom s.queue (s.currentIndex + 1) }
    else
      { s with queue := s.queue ++ [t] }
  { s1 with originalQueue := s1.originalQueue ++ [t] }

/-- Model of `AudioPlayerService.removeFromQueue(index)`. -/
def removeFromQueue (index : Int) (s : EngineState) : EngineState :=
  if 0 ≤ index ∧ index < (s.queue.length : Int) then
    let s1 := { s with queue := s.queue.eraseIdx index.toNat }
    if index ≤ s1.currentIndex then
      { s1 with currentIndex := max 0 (s1.currentIndex - 1) }
    else s1
  else s

/-- Model of `AudioPlayerService.toggleShuffle()`. -/
def toggleShuffle (rand : Nat → Nat) (s : EngineState) : EngineState :=
  let willShuffle := !s.isShuffled
  let s1 := { s with isShuffled := willShuffle }
  if willShuffle then
    shuffleQueue rand s1.queue s1
  else
    let s2 := { s1 with queue := s1.originalQueue }
    match s2.currentTrack with
    | some ct =>
      let idx := findIndexById ct.id s2.originalQueue
      if idx ≠ -1 then { s2 with currentIndex := idx } else s2
    | none => s2

/-- Model of `AudioPlayerService.handleTrackEnd()` ('ended' device event). -/
def handleTrackEnd (s : EngineState) : EngineState :=
  if s.isRepeating then
    play (seek 0 s)
  else if hasNext s then
    next s
  else
    stop s

/-- One queue-editing call, for reasoning about call sequences. -/
inductive QueueOp where
  | set (tracks : List Track) (startIndex : Int)
  | add (t : Track) (playNext : Bool)
  | remove (index : Int)

/-- Apply one queue-editing call to the engine state. -/
def applyQueueOp (rand : Nat → Nat) (s : EngineState) : QueueOp → EngineState
  | .set ts i => setQueue rand ts i s
  | .add t p => addToQueue t p s
  | .remove i => removeFromQueue i s

/-- Run a sequence of queue-editing calls from the initial engine state. -/
def runQueueOps (rand : Nat → Nat) (ops : List QueueOp) : EngineState :=
  ops.foldl (applyQueueOp rand) initState

/-! Section: Persistence store (`storage.service.ts`) -/

/-- Model of `IDBObjectStore.put` on a store keyed by `key`: replace the record with
the same key, or add the record. -/
def putByKey {α : Type} (key : α → String) (a : α) (l : List α) : List α :=
  if l.any (fun x => key x == key a) then
    l.map (fun x => if key x == key a then a else x)
  else l ++ [a]

/-- The two record collections of `MusicStreamDB`. -/
structure Store where
  tracks : List Track
  playlists : List Playlist
deriving DecidableEq, Repr

/-- An empty database. -/
def emptyStore : Store := { tracks := [], playlists := [] }

/-- Model of `StorageService.saveTrack` (device write succeeding). -/
def saveTrack (t : Track) (s : Store) : Store :=
  { s with tracks := putByKey Track.id t s.tracks }

/-- Model of `StorageService.savePlaylist` (device write succeeding). -/
def savePlaylist (p : Playlist) (s : Store) : Store :=
  { s with playlists := putByKey Playlist.id p s.playlists }

/-- Model of `StorageService.getTrack`: the record under the key, or null. -/
def getTrack (id : String) (s : Store) : Option Track :=
  s.tracks.find? (fun t => t.id == id)

/-- Model of `StorageService.getPlaylist`. -/
def getPlaylist (id : String) (s : Store) : Option Playlist :=
  s.playlists.find? (fun p => p.id == id)

/-- Model of `StorageService.deleteTrack`: `IDBObjectStore.delete` removes the
record under the key and succeeds also when the key is absent. -/
def storeDeleteTrack (id : String) (s : Store) : Store :=
  { s with tracks := s.tracks.filter (fun t => !(t.id == id)) }

/-- Model of `StorageService.toggleTrackLike`: increments the like counter of an
existing record and returns the new count; returns 0 and writes nothing
for an absent id. -/
def toggleTrackLike (id : String) (s : Store) : Nat × Store :=
  match getTrack id s with
  | some t => (t.likes + 1, saveTrack { t with likes := t.likes + 1 } s)
  | none => (0, s)

/-- The JSON document built by `StorageService.exportData`. -/
structure ExportDoc where
  tracks : List Track
  playlists : List Playlist
  exportDate : Int
  version : String
deriving DecidableEq, Repr

/-- Model of `StorageService.exportData` (`now` is the `new Date()` timestamp). -/
def exportData (now : Int) (s : Store) : ExportDoc :=
  { tracks := s.tracks, playlists := s.playlists,
    exportDate := now, version := "1.0" }

/-- The parsed JSON object seen by `StorageService.importData`; the two
collections are optional (`if (data.tracks)` / `if (data.playlists)`). -/
structure ImportSnapshot where
  tracks : Option (List Track)
  playlists : Option (List Playlist)

/-- Reading an exported document back as an import snapshot (JSON
round-trip on the record data; an exported array is always present, and an
empty array is truthy in JS). -/
def snapshotOfDoc (d : ExportDoc) : ImportSnapshot :=
  { tracks := some d.tracks, playlists := some d.playlists }

/-- The `for (const track of data.tracks) await saveTrack(track)` loop of
`importData`.  `fails t = true` means the device rejects the write of `t`;
the boolean of the result records whether the loop threw.  The loop stops
at the first rejected write, keeping the store state reached so far. -/
def importTracksLoop (fails : Track → Bool) :
    List Track → Store → Store × Bool
  | [], s => (s, false)
  | t :: ts, s =>
    if fails t then (s, true)
    else importTracksLoop fails ts (saveTrack t s)

/-- The playlist loop of `importData`, analogous. -/
def importPlaylistsLoop (fails : Playlist → Bool) :
    List Playlist → Store → Store × Bool
  | [], s => (s, false)
  | p :: ps, s =>
    if fails p then (s, true)
    else importPlaylistsLoop fails ps (savePlaylist p s)

/-- Model of `StorageService.importData`: tracks first, then playlists; a throw in
the track loop propagates, so the playlist loop never runs after it. -/
def importData (failsT : Track → Bool) (failsP : Playlist → Bool)
    (d : ImportSnapshot) (s : Store) : Store × Bool :=
  let r1 :=
    match d.tracks with
    | some ts => importTracksLoop failsT ts s
    | none => (s, false)
  if r1.2 then r1
  else
    match d.playlists with
    | some ps => importPlaylistsLoop failsP ps r1.1
    | none => r1

/-! Section: Library index (`track.service.ts`) -/

/-- Model of `LoadingState` type from `track.service.ts`. -/
inductive LoadingState where
  | idle | loading | success | error
deriving DecidableEq, Repr

/-- The `TrackService` state the delete path touches: the backing store,
the `tracksSignal` projection and the loading state. -/
structure LibState where
  store : Store
  tracksSig : List Track
  loading : LoadingState
deriving DecidableEq, Repr

/-- Model of `TrackService.deleteTrack` (storage delete succeeding): deletes from
the store, filters the projection, ends in the `success` loading state. -/
def libDeleteTrack (id : String) (st : LibState) : LibState :=
  { st with
    store := storeDeleteTrack id st.store
    tracksSig := st.tracksSig.filter (fun t => !(t.id == id))
    loading := .success }

/-- Sort keys from `player-state.enum.ts` as enumerated by the `switch` in
the `tracks` computed signal of `track.service.ts`. -/
inductive SortBy where
  | title | artist | date | duration | plays | likes
deriving DecidableEq, Repr

/-- Sort orders from `player-state.enum.ts`. -/
inductive SortOrder where
  | asc | desc
deriving DecidableEq, Repr

/-- The comparator operand `aValue`/`bValue` in the `tracks` computed
signal: a lower-cased string or a number depending on the sort key. -/
inductive SortVal where
  | s (v : String)
  | n (v : Rat)
deriving DecidableEq, Repr

/-- JS `aValue > bValue` on two sort values (both sides always have the
same type here, so no coercion case arises). -/
def sortValGt : SortVal → SortVal → Bool
  | .s a, .s b => decide (b < a)
  | .n a, .n b => decide (b < a)
  | _, _ => false

/-- JS `aValue < bValue` on two sort values. -/
def sortValLt : SortVal → SortVal → Bool
  | .s a, .s b => decide (a < b)
  | .n a, .n b => decide (a < b)
  | _, _ => false

/-- The `switch (sortBy)` of the `tracks` computed signal. -/
def keyOf : SortBy → Track → SortVal
  | .title, t => .s t.title.toLower
  | .artist, t => .s t.artist.toLower
  | .date, t => .n (t.addedDate : Rat)
  | .duration, t => .n t.duration
  | .plays, t => .n (t.plays : Rat)
  | .likes, t => .n (t.likes : Rat)

/-- The comparator passed to `filtered.sort` in the `tracks` computed
signal: ascending `aValue > bValue ? 1 : -1`, descending
`aValue < bValue ? 1 : -1`.  Note it never returns 0. -/
def cmpTracks (sb : SortBy) (so : SortOrder) (a b : Track) : Int :=
  match so with
  | .asc => if sortValGt (keyOf sb a) (keyOf sb b) then 1 else -1
  | .desc => if sortValLt (keyOf sb a) (keyOf sb b) then 1 else -1

/-! Section: Helper lemmas -/

theorem cons_set_perm {α : Type} (xs : List α) (m : Nat) (x b : α)
    (h : xs[m]? = some b) : (b :: xs.set m x).Perm (x :: xs) := by
  induction xs generalizing m with
  | nil => simp at h
  | cons y ys ih =>
    cases m with
    | zero =>
      simp at h
      subst h
      simpa using List.Perm.swap x y ys
    | succ k =>
      simp at h
      have h1 := ih k h
      simp only [List.set_cons_succ]
      exact ((List.Perm.swap y b (ys.set k x)).trans (h1.cons y)).trans
        (List.Perm.swap x y ys)

theorem set_set_perm {α : Type} (l : List α) (i j : Nat) (a b : α)
    (hi : l[i]? = some a) (hj : l[j]? = some b) :
    ((l.set i b).set j a).Perm l := by
  induction l generalizing i j with
  | nil => simp at hi
  | cons x xs ih =>
    cases i with
    | zero =>
      simp at hi
      subst hi
      cases j with
      | zero =>
        simp at hj
        subst hj
        simp
      | succ m =>
        simp at hj
        simpa using cons_set_perm xs m x b hj
    | succ n =>
      simp at hi
      cases j with
      | zero =>
        simp at hj
        subst hj
        simpa using cons_set_perm xs n x a hi
      | succ m =>
        simp at hj
        simpa using (ih n m hi hj).cons x

theorem swapIdx_perm {α : Type} (l : List α) (i j : Nat) :
    (swapIdx l i j).Perm l := by
  unfold swapIdx
  split
  · next a b hi hj => exact set_set_perm l i j a b hi hj
  · exact List.Perm.refl l

theorem fyAux_perm (rand : Nat → Nat) :
    ∀ (n : Nat) (l : List Track), (fyAux rand n l).Perm l := by
  intro n
  induction n with
  | zero =>
    intro l
    exact List.Perm.refl l
  | succ i ih =>
    intro l
    have h1 := ih (swapIdx l (i + 1) (rand (i + 1) % (i + 2)))
    have h2 := swapIdx_perm l (i + 1) (rand (i + 1) % (i + 2))
    simpa [fyAux] using h1.trans h2

theorem fyShuffle_perm (rand : Nat → Nat) (l : List Track) :
    (fyShuffle rand l).Perm l :=
  fyAux_perm rand (l.length - 1) l

theorem fyShuffle_length (rand : Nat → Nat) (l : List Track) :
    (fyShuffle rand l).length = l.length :=
  (fyShuffle_perm rand l).length_eq

theorem listGet_ofNat (l : List Track) (k : Nat) :
    listGet l (k : Int) = l[k]? := by
  simp [listGet]

theorem findIndexById_of_mem (id : String) (l : List Track)
    (h : id ∈ l.map Track.id) :
    ∃ k : Nat, findIndexById id l = (k : Int) ∧
      (listGet l (k : Int)).map Track.id = some id := by
  induction l with
  | nil => simp at h
  | cons t ts ih =>
    by_cases ht : t.id = id
    · refine ⟨0, by simp [findIndexById, ht], ?_⟩
      rw [listGet_ofNat]
      simp [ht]
    · have h' : id ∈ ts.map Track.id := by
        simp only [List.map_cons, List.mem_cons] at h
        rcases h with h1 | h1
        · exact absurd h1.symm ht
        · simpa using h1
      obtain ⟨k, hk1, hk2⟩ := ih h'
      refine ⟨k + 1, ?_, ?_⟩
      · have hne : (k : Int) ≠ -1 := by omega
        push_cast
        simp [findIndexById, ht, hk1, hne]
      · rw [listGet_ofNat] at hk2 ⊢
        simpa using hk2

theorem loadTrack_queue (t : Track) (s : EngineState) :
    (loadTrack t s).queue = s.queue := by
  simp only [loadTrack]
  split <;> rfl

theorem loadTrackOpt_queue (o : Option Track) (s : EngineState) :
    (loadTrackOpt o s).queue = s.queue := by
  cases o with
  | none => rfl
  | some t => exact loadTrack_queue t s

theorem loadTrackOpt_currentTrack (o : Option Track) (s : EngineState) :
    (loadTrackOpt o s).currentTrack = o := by
  cases o with
  | none => rfl
  | some t =>
    simp only [loadTrackOpt, loadTrack]
    split <;> rfl

theorem play_currentIndex (s : EngineState) :
    (play s).currentIndex = s.currentIndex := by
  simp only [play]
  split <;> rfl

theorem play_currentTrack (s : EngineState) :
    (play s).currentTrack = s.currentTrack := by
  simp only [play]
  split <;> rfl

theorem play_queue (s : EngineState) :
    (play s).queue = s.queue := by
  simp only [play]
  split <;> rfl

theorem shuffleQueue_queue (rand : Nat → Nat) (ts : List Track)
    (s : EngineState) : (shuffleQueue rand ts s).queue = fyShuffle rand ts := by
  cases h : s.currentTrack with
  | none => simp [shuffleQueue, h]
  | some ct =>
    simp only [shuffleQueue, h]
    split <;> rfl

/-! Section: Concrete sample data for witnesses and counterexamples -/

/-- A sample track with the given id and title. -/
def mkTrack (id title : String) : Track :=
  { id := id
    title := title
    artist := "artist"
    description := none
    duration := 180
    category := .pop
    addedDate := 0
    fileUrl := "url"
    fileSize := 1000
    fileType := "audio/mpeg"
    coverImage := none
    coverColor := none
    plays := 0
    likes := 0 }

/-- A fixed random source for concrete evaluations. -/
def randZero : Nat → Nat := fun _ => 0

/-! Section: C9 -/

/-- C9: for every engine state and every out-of-range index (negative or
at least the queue length), `removeFromQueue(index)` leaves the whole
state unchanged (and raises no error). -/
theorem c9_remove_out_of_range (s : EngineState) (index : Int)
    (h : index < 0 ∨ (s.queue.length : Int) ≤ index) :
    removeFromQueue index s = s := by
  have hc : ¬(0 ≤ index ∧ index < (s.queue.length : Int)) := by omega
  simp [removeFromQueue, hc]

/-- Witness for C9 at a concrete out-of-range index. -/
theorem c9_remove_witness : removeFromQueue 5 initState = initState :=
  c9_remove_out_of_range initState 5 (Or.inr (by decide))

/-! Section: C1 -/

/-- The invariant claimed by C1. -/
def c1Invariant (s : EngineState) : Prop :=
  (s.currentIndex = -1 ↔ s.queue.length = 0) ∧
  (s.currentIndex ≠ -1 →
    0 ≤ s.currentIndex ∧ s.currentIndex < (s.queue.length : Int))

/-- C1 counterexample: a single `addToQueue` call from the initial state
yields a one-element queue while `currentIndex` is still `-1`, so the
claimed invariant fails. -/
theorem c1_counterexample :
    ¬ c1Invariant
      (runQueueOps randZero [QueueOp.add (mkTrack "t1" "a") false]) := by
  unfold c1Invariant
  decide

/-- The invariant that does hold once established. -/
def goodQueueState (s : EngineState) : Prop :=
  0 ≤ s.currentIndex ∧ s.currentIndex < (s.queue.length : Int)

/-- Preconditions under which one queue-editing call keeps
`goodQueueState`. -/
def queueOpOk (s : EngineState) : QueueOp → Prop
  | .set ts i => 0 ≤ i ∧ i < (ts.length : Int)
  | .add _ _ => goodQueueState s
  | .remove _ => goodQueueState s ∧ 2 ≤ s.queue.length

theorem setQueue_currentIndex (rand : Nat → Nat) (ts : List Track)
    (i : Int) (s : EngineState) (h0 : 0 ≤ i) (h1 : i < (ts.length : Int)) :
    (setQueue rand ts i s).currentIndex = i := by
  have hl : 0 < ts.length := by omega
  simp [setQueue, hl, h1]

theorem setQueue_queue_length (rand : Nat → Nat) (ts : List Track)
    (i : Int) (s : EngineState) :
    (setQueue rand ts i s).queue.length = ts.length := by
  simp only [setQueue]
  split
  · simp only [loadTrackOpt_queue]
    split
    · simp [shuffleQueue_queue, fyShuffle_length]
    · simp
  · split
    · simp [shuffleQueue_queue, fyShuffle_length]
    · simp

theorem addToQueue_currentIndex (t : Track) (p : Bool) (s : EngineState) :
    (addToQueue t p s).currentIndex = s.currentIndex := by
  simp only [addToQueue]
  split <;> rfl

theorem addToQueue_queue_length (t : Track) (p : Bool) (s : EngineState)
    (h : 0 ≤ s.currentIndex) :
    (addToQueue t p s).queue.length = s.queue.length + 1 := by
  simp only [addToQueue]
  split
  · have hneg : ¬(s.currentIndex + 1 < 0) := by omega
    simp only [jsSliceEnd, jsSliceFrom, if_neg hneg, List.length_append,
      List.length_cons, List.length_take, List.length_drop]
    omega
  · simp

/-- C1 amended: the biconditional `currentIndex = -1 ↔ queue empty` is
false of the code (see the counterexample), but the in-range invariant
`0 ≤ currentIndex < queue.length` is established by any `setQueue` call
with `0 ≤ startIndex < tracks.length` and preserved by every `addToQueue`
and by every `removeFromQueue` issued while the queue holds at least two
entries. -/
theorem c1_amended (rand : Nat → Nat) (s : EngineState) (op : QueueOp)
    (h : queueOpOk s op) : goodQueueState (applyQueueOp rand s op) := by
  cases op with
  | set ts i =>
    obtain ⟨h0, h1⟩ := h
    simp only [applyQueueOp]
    constructor
    · rw [setQueue_currentIndex rand ts i s h0 h1]
      exact h0
    · rw [setQueue_currentIndex rand ts i s h0 h1,
        setQueue_queue_length rand ts i s]
      exact h1
  | add t p =>
    obtain ⟨h0, h1⟩ := h
    simp only [applyQueueOp]
    constructor
    · rw [addToQueue_currentIndex]
      exact h0
    · rw [addToQueue_currentIndex, addToQueue_queue_length t p s h0]
      omega
  | remove i =>
    obtain ⟨⟨h0, h1⟩, h2⟩ := h
    by_cases hv : 0 ≤ i ∧ i < (s.queue.length : Int)
    · have hlt : i.toNat < s.queue.length := by omega
      have herase := List.length_eraseIdx_of_lt hlt
      simp only [applyQueueOp, removeFromQueue, if_pos hv]
      split
      · constructor
        · simp only [goodQueueState]
          omega
        · simp only [goodQueueState, herase]
          omega
      · constructor
        · exact h0
        · simp only [herase]
          omega
    · simp only [applyQueueOp, removeFromQueue, if_neg hv]
      exact ⟨h0, h1⟩

/-- Witness for C1's amended invariant at a concrete `setQueue` call. -/
theorem c1_amended_witness :
    goodQueueState
      (applyQueueOp randZero initState (QueueOp.set [mkTrack "t1" "a"] 0)) :=
  c1_amended randZero initState (QueueOp.set [mkTrack "t1" "a"] 0)
    (by constructor <;> decide)

/-! Section: C2 -/

/-- A playing engine state over queue `q`, used for concrete scenarios. -/
def baseEngine (q : List Track) (ci : Int) (ct : Option Track) (time : Rat)
    (rep : Bool) : EngineState :=
  { currentTrack := ct
    status := .playing
    currentTime := time
    duration := 180
    volume := 1
    isMuted := false
    queue := q
    currentIndex := ci
    isShuffled := false
    isRepeating := rep
    originalQueue := q
    error := ""
    isLoading := false }

/-- Single-track queue, current index 0, 2 seconds elapsed. -/
def c2State0 : EngineState :=
  baseEngine [mkTrack "t1" "a"] 0 (some (mkTrack "t1" "a")) 2 false

/-- C2 counterexample: with 2 seconds elapsed and `currentIndex = 0`,
the claim says `previous()` restarts the track (position becomes 0), but
the code leaves the whole state unchanged (position stays 2). -/
theorem c2_counterexample :
    previous c2State0 = c2State0 ∧ (previous c2State0).currentTime ≠ 0 := by
  constructor <;> decide

theorem play_status_of_some (s : EngineState) (h : s.currentTrack.isSome) :
    (play s).status = .playing := by
  simp [play, h]

/-- C2 amended: `previous()` seeks to 0 exactly when more than 3 seconds
have elapsed; when at most 3 seconds have elapsed it loads the track at
`currentIndex - 1` and decrements `currentIndex` if `currentIndex > 0`,
and otherwise (no prior track) it is a complete no-op rather than a
restart. -/
theorem c2_previous_amended (s : EngineState)
    (hlen : s.currentIndex ≤ (s.queue.length : Int)) :
    (3 < s.currentTime → previous s = seek 0 s) ∧
    (s.currentTime ≤ 3 → 0 < s.currentIndex →
      (previous s).currentIndex = s.currentIndex - 1 ∧
      (previous s).currentTrack = listGet s.queue (s.currentIndex - 1) ∧
      (previous s).status = PlayerStatus.playing) ∧
    (s.currentTime ≤ 3 → s.currentIndex ≤ 0 → previous s = s) := by
  refine ⟨?_, ?_, ?_⟩
  · intro h
    simp [previous, h]
  · intro h3 hpos
    have hn3 : ¬(3 < s.currentTime) := not_lt.mpr h3
    have h0 : ¬(s.currentIndex - 1 < 0) := by omega
    have hlt : (s.currentIndex - 1).toNat < s.queue.length := by omega
    have hu : listGet s.queue (s.currentIndex - 1) =
        some (s.queue.get ⟨(s.currentIndex - 1).toNat, hlt⟩) := by
      simp [listGet, h0, List.getElem?_eq_getElem hlt, List.get_eq_getElem]
    simp only [previous, if_neg hn3, if_pos hpos]
    refine ⟨?_, ?_, ?_⟩
    · rw [play_currentIndex]
    · rw [play_currentTrack]
      show (loadTrackOpt (listGet s.queue (s.currentIndex - 1)) s).currentTrack
        = listGet s.queue (s.currentIndex - 1)
      exact loadTrackOpt_currentTrack _ s
    · apply play_status_of_some
      show ((loadTrackOpt (listGet s.queue (s.currentIndex - 1)) s).currentTrack).isSome
      rw [loadTrackOpt_currentTrack, hu]
      rfl
  · intro h3 hnpos
    have hn3 : ¬(3 < s.currentTime) := not_lt.mpr h3
    have hn : ¬(0 < s.currentIndex) := by omega
    simp [previous, hn3, hn]

/-- Elapsed 10 seconds: the seek branch. -/
def c2StateA : EngineState :=
  baseEngine [mkTrack "t1" "a"] 0 (some (mkTrack "t1" "a")) 10 false

/-- Two-track queue at index 1, 2 seconds elapsed: the load branch. -/
def c2StateB : EngineState :=
  baseEngine [mkTrack "t1" "a", mkTrack "t2" "b"] 1 (some (mkTrack "t2" "b"))
    2 false

/-- Witness for C2's amended statement on all three branches. -/
theorem c2_previous_witness :
    previous c2StateA = seek 0 c2StateA ∧
    (previous c2StateB).currentIndex = 0 ∧
    previous c2State0 = c2State0 :=
  ⟨(c2_previous_amended c2StateA (by decide)).1 (by decide),
   ((c2_previous_amended c2StateB (by decide)).2.1 (by decide) (by decide)).1,
   (c2_previous_amended c2State0 (by decide)).2.2 (by decide) (by decide)⟩

/-! Section: C7 -/

theorem play_currentTime (s : EngineState) :
    (play s).currentTime = s.currentTime := by
  simp only [play]
  split <;> rfl

theorem seek_currentIndex (time : Rat) (s : EngineState) :
    (seek time s).currentIndex = s.currentIndex := by
  simp only [seek]
  split <;> rfl

theorem seek_currentTrack (time : Rat) (s : EngineState) :
    (seek time s).currentTrack = s.currentTrack := by
  simp only [seek]
  split <;> rfl

/-- C7: on the 'ended' device signal, with a current track loaded: if
repeat is on, the position resets to 0, the queue index does not advance
and the status is `playing`; if repeat is off and a next queue entry
exists, the engine advances to it; if repeat is off and no next entry
exists, the engine stops. -/
theorem c7_track_end (s : EngineState) (hct : s.currentTrack.isSome) :
    (s.isRepeating = true → 0 < s.duration →
      (handleTrackEnd s).currentTime = 0 ∧
      (handleTrackEnd s).currentIndex = s.currentIndex ∧
      (handleTrackEnd s).status = PlayerStatus.playing) ∧
    (s.isRepeating = false → s.currentIndex < (s.queue.length : Int) - 1 →
      (handleTrackEnd s).currentIndex = s.currentIndex + 1 ∧
      (handleTrackEnd s).currentTrack = listGet s.queue (s.currentIndex + 1)) ∧
    (s.isRepeating = false → (s.queue.length : Int) - 1 ≤ s.currentIndex →
      (handleTrackEnd s).status = PlayerStatus.stopped) := by
  refine ⟨?_, ?_, ?_⟩
  · intro hrep hd
    have hne : s.duration ≠ 0 := by
      intro h
      rw [h] at hd
      exact lt_irrefl 0 hd
    have hseek : seek 0 s = { s with currentTime := 0 } := by
      have hmin : min (0 : Rat) s.duration = 0 := min_eq_left hd.le
      simp [seek, hne, hmin]
    simp only [handleTrackEnd, hrep, if_pos, hseek]
    refine ⟨?_, ?_, ?_⟩
    · rw [play_currentTime]
    · rw [play_currentIndex]
    · exact play_status_of_some _ hct
  · intro hrep hlt
    have hnext : hasNext s = true := by
      simp [hasNext, hlt]
    simp only [handleTrackEnd, hrep, Bool.false_eq_true, if_false, hnext,
      if_true, next, if_pos hlt]
    constructor
    · rw [play_currentIndex]
    · rw [play_currentTrack]
      exact loadTrackOpt_currentTrack _ s
  · intro hrep hge
    have hnlt : ¬(s.currentIndex < (s.queue.length : Int) - 1) := by omega
    have hnext : hasNext s = false := by
      simp [hasNext, hrep, hnlt]
    simp [handleTrackEnd, hrep, hnext, stop]

/-- Repeat on, one-track queue. -/
def c7Rep : EngineState :=
  baseEngine [mkTrack "t1" "a"] 0 (some (mkTrack "t1" "a")) 100 true

/-- Repeat off, two tracks, at index 0. -/
def c7Adv : EngineState :=
  baseEngine [mkTrack "t1" "a", mkTrack "t2" "b"] 0 (some (mkTrack "t1" "a"))
    100 false

/-- Repeat off, two tracks, at the last index. -/
def c7End : EngineState :=
  baseEngine [mkTrack "t1" "a", mkTrack "t2" "b"] 1 (some (mkTrack "t2" "b"))
    100 false

/-- Witness for C7 on all three branches. -/
theorem c7_track_end_witness :
    (handleTrackEnd c7Rep).currentTime = 0 ∧
    (handleTrackEnd c7Rep).status = PlayerStatus.playing ∧
    (handleTrackEnd c7Adv).currentIndex = 1 ∧
    (handleTrackEnd c7End).status = PlayerStatus.stopped :=
  ⟨((c7_track_end c7Rep (by decide)).1 rfl (by decide)).1,
   ((c7_track_end c7Rep (by decide)).1 rfl (by decide)).2.2,
   ((c7_track_end c7Adv (by decide)).2.1 rfl (by decide)).1,
   (c7_track_end c7End (by decide)).2.2 rfl (by decide)⟩

/-! Section: C3 -/

/-- C3: from a coherent engine state (live queue equal to the original
queue, shuffle off, current track present in the queue), enabling shuffle
and then disabling it: the shuffled queue is a permutation of the
original (same track ids), disabling restores the original order exactly,
and after each toggle the entry of the live queue at `currentIndex`
carries the id of the track that was current before the operation. -/
theorem c3_shuffle_roundtrip (r1 r2 : Nat → Nat) (s : EngineState) (t : Track)
    (hq : s.queue = s.originalQueue) (hsh : s.isShuffled = false)
    (hct : s.currentTrack = some t) (hmem : t.id ∈ s.queue.map Track.id) :
    (toggleShuffle r1 s).queue.Perm s.queue ∧
    (toggleShuffle r2 (toggleShuffle r1 s)).queue = s.queue ∧
    (listGet (toggleShuffle r1 s).queue
      (toggleShuffle r1 s).currentIndex).map Track.id = some t.id ∧
    (listGet (toggleShuffle r2 (toggleShuffle r1 s)).queue
      (toggleShuffle r2 (toggleShuffle r1 s)).currentIndex).map Track.id
      = some t.id := by
  have hmem1 : t.id ∈ (fyShuffle r1 s.queue).map Track.id :=
    ((fyShuffle_perm r1 s.queue).map Track.id).mem_iff.mpr hmem
  obtain ⟨k, hk1, hk2⟩ := findIndexById_of_mem t.id (fyShuffle r1 s.queue) hmem1
  have hkne : (k : Int) ≠ -1 := by omega
  have hs1 : toggleShuffle r1 s =
      { s with
        isShuffled := true
        queue := fyShuffle r1 s.queue
        currentIndex := (k : Int) } := by
    simp [toggleShuffle, hsh, shuffleQueue, hct, hk1, hkne]
  obtain ⟨k2, hk21, hk22⟩ :=
    findIndexById_of_mem t.id s.originalQueue (hq ▸ hmem)
  have hk2ne : (k2 : Int) ≠ -1 := by omega
  have hs2 : toggleShuffle r2 (toggleShuffle r1 s) =
      { s with
        isShuffled := false
        queue := s.originalQueue
        currentIndex := (k2 : Int) } := by
    rw [hs1]
    simp [toggleShuffle, hct, hk21, hk2ne]
  refine ⟨?_, ?_, ?_, ?_⟩
  · rw [hs1]
    exact fyShuffle_perm r1 s.queue
  · rw [hs2, ← hq]
  · rw [hs1]
    exact hk2
  · rw [hs2]
    exact hk22

/-- Two-track coherent state for the shuffle witness. -/
def c3State : EngineState :=
  baseEngine [mkTrack "t1" "a", mkTrack "t2" "b"] 0 (some (mkTrack "t1" "a"))
    2 false

/-- Witness for C3 at a concrete two-track queue. -/
theorem c3_shuffle_witness :
    (toggleShuffle randZero (toggleShuffle randZero c3State)).queue
      = c3State.queue ∧
    (listGet (toggleShuffle randZero c3State).queue
      (toggleShuffle randZero c3State).currentIndex).map Track.id
      = some (mkTrack "t1" "a").id :=
  ⟨(c3_shuffle_roundtrip randZero randZero c3State (mkTrack "t1" "a")
      rfl rfl rfl (by decide)).2.1,
   (c3_shuffle_roundtrip randZero randZero c3State (mkTrack "t1" "a")
      rfl rfl rfl (by decide)).2.2.1⟩

/-! Section: C8 -/

/-- C8: deleting a track id twice through the library leaves exactly the
state of deleting it once, and deleting an id absent from the store and
projection changes neither of them (and raises no error). -/
theorem c8_idempotent_delete (id : String) (st : LibState) :
    libDeleteTrack id (libDeleteTrack id st) = libDeleteTrack id st ∧
    ((∀ t ∈ st.store.tracks, t.id ≠ id) → (∀ t ∈ st.tracksSig, t.id ≠ id) →
      (libDeleteTrack id st).store = st.store ∧
      (libDeleteTrack id st).tracksSig = st.tracksSig) := by
  obtain ⟨⟨tr, pl⟩, sig, ld⟩ := st
  constructor
  · simp [libDeleteTrack, storeDeleteTrack, List.filter_filter]
  · intro h1 h2
    have e1 : tr.filter (fun t => !(t.id == id)) = tr := by
      rw [List.filter_eq_self]
      intro a ha
      simpa using h1 a ha
    have e2 : sig.filter (fun t => !(t.id == id)) = sig := by
      rw [List.filter_eq_self]
      intro a ha
      simpa using h2 a ha
    constructor
    · simp [libDeleteTrack, storeDeleteTrack, e1]
    · simp [libDeleteTrack, e2]

/-- A one-track library state. -/
def c8State : LibState :=
  { store := { tracks := [mkTrack "t1" "a"], playlists := [] }
    tracksSig := [mkTrack "t1" "a"]
    loading := .success }

/-- Witness for C8 at a concrete library state and an absent id. -/
theorem c8_idempotent_witness :
    libDeleteTrack "zz" (libDeleteTrack "zz" c8State)
      = libDeleteTrack "zz" c8State ∧
    (libDeleteTrack "zz" c8State).store = c8State.store :=
  ⟨(c8_idempotent_delete "zz" c8State).1,
   ((c8_idempotent_delete "zz" c8State).2 (by decide) (by decide)).1⟩

/-! Section: C10 -/

theorem find?_map_replace {α : Type} (key : α → String) (a : α)
    (l : List α) (h : l.any (fun x => key x == key a) = true) :
    (l.map (fun x => if key x == key a then a else x)).find?
      (fun x => key x == key a) = some a := by
  induction l with
  | nil => simp at h
  | cons y ys ih =>
    by_cases hy : (key y == key a) = true
    · simp only [List.map_cons]
      rw [if_pos hy]
      exact List.find?_cons_of_pos _ (by simp)
    · have h' : ys.any (fun x => key x == key a) = true := by
        simpa [hy] using h
      have hyf : (key y == key a) = false := by simpa using hy
      simp only [List.map_cons, if_neg hy]
      rw [List.find?_cons, hyf]
      exact ih h'

theorem find?_append_self {α : Type} (key : α → String) (a : α)
    (l : List α) (h : l.any (fun x => key x == key a) = false) :
    (l ++ [a]).find? (fun x => key x == key a) = some a := by
  induction l with
  | nil => simp
  | cons y ys ih =>
    have hy : (key y == key a) = false := by
      by_cases hb : (key y == key a) = true
      · simp [List.any_cons, hb] at h
      · simpa using hb
    have h' : ys.any (fun x => key x == key a) = false := by
      simpa [hy] using h
    simp [hy, ih h']

theorem find?_putByKey {α : Type} (key : α → String) (a : α) (l : List α) :
    (putByKey key a l).find? (fun x => key x == key a) = some a := by
  unfold putByKey
  split
  · next h => exact find?_map_replace key a l h
  · next h =>
    exact find?_append_self key a l (by simpa using h)

theorem getTrack_saveTrack (t : Track) (s : Store) :
    getTrack t.id (saveTrack t s) = some t := by
  simpa [getTrack, saveTrack] using find?_putByKey Track.id t s.tracks

/-- C10: each `toggleTrackLike` call on an existing track id adds exactly
one to the stored like count and returns the new count (so it never
decreases: a second call returns old + 2); for an absent id it returns 0
and leaves the store untouched. -/
theorem toggleTrackLike_of_some (s : Store) (id : String) (t : Track)
    (ht : getTrack id s = some t) :
    toggleTrackLike id s
      = (t.likes + 1, saveTrack { t with likes := t.likes + 1 } s) := by
  simp [toggleTrackLike, ht]

theorem c10_toggle_like (s : Store) (id : String) :
    (∀ t, getTrack id s = some t →
      (toggleTrackLike id s).1 = t.likes + 1 ∧
      getTrack id (toggleTrackLike id s).2
        = some { t with likes := t.likes + 1 } ∧
      (toggleTrackLike id (toggleTrackLike id s).2).1 = t.likes + 2) ∧
    (getTrack id s = none → toggleTrackLike id s = (0, s)) := by
  constructor
  · intro t ht
    have e1 := toggleTrackLike_of_some s id t ht
    have hid : t.id = id := by
      have hfind : s.tracks.find? (fun x => x.id == id) = some t := ht
      simpa using List.find?_some hfind
    have h2 : getTrack id (toggleTrackLike id s).2
        = some { t with likes := t.likes + 1 } := by
      rw [e1]
      simpa [hid] using getTrack_saveTrack { t with likes := t.likes + 1 } s
    have e2 := toggleTrackLike_of_some (toggleTrackLike id s).2 id
      { t with likes := t.likes + 1 } h2
    exact ⟨by rw [e1], h2, by rw [e2]⟩
  · intro h
    simp [toggleTrackLike, h]

/-- A store holding one track with zero likes. -/
def c10Store : Store := { tracks := [mkTrack "t1" "a"], playlists := [] }

/-- Witness for C10: two calls on an existing id return 1 then 2, and a
call on an absent id returns 0 without writing. -/
theorem c10_toggle_like_witness :
    (toggleTrackLike "t1" c10Store).1 = 1 ∧
    (toggleTrackLike "t1" (toggleTrackLike "t1" c10Store).2).1 = 2 ∧
    toggleTrackLike "zz" c10Store = (0, c10Store) :=
  ⟨((c10_toggle_like c10Store "t1").1 (mkTrack "t1" "a") (by decide)).1,
   ((c10_toggle_like c10Store "t1").1 (mkTrack "t1" "a") (by decide)).2.2,
   (c10_toggle_like c10Store "zz").2 (by decide)⟩

/-! Section: C5 -/

theorem importTracksLoop_append (fails : Track → Bool) (ts1 : List Track)
    (t : Track) (ts2 : List Track) (s : Store) (hf : fails t = true)
    (h1 : ∀ x ∈ ts1, fails x = false) :
    importTracksLoop fails (ts1 ++ t :: ts2) s =
      (ts1.foldl (fun acc x => saveTrack x acc) s, true) := by
  induction ts1 generalizing s with
  | nil => simp [importTracksLoop, hf]
  | cons y ys ih =>
    have hy : fails y = false := h1 y (by simp)
    simp only [List.cons_append, importTracksLoop, hy, Bool.false_eq_true,
      if_false, List.foldl_cons]
    exact ih (saveTrack y s) (fun x hx => h1 x (by simp [hx]))

/-- C5 amended: `importData` applies records strictly in order and stops at
the first record whose write is rejected: records before it stay written,
but the remaining tracks and the whole playlist collection are not
applied, and the error propagates to the caller instead of being
collected. -/
theorem c5_import_amended (failsT : Track → Bool) (failsP : Playlist → Bool)
    (ts1 : List Track) (t : Track) (ts2 : List Track)
    (pls : Option (List Playlist)) (s : Store) (hf : failsT t = true)
    (h1 : ∀ x ∈ ts1, failsT x = false) :
    importData failsT failsP ⟨some (ts1 ++ t :: ts2), pls⟩ s =
      (ts1.foldl (fun acc x => saveTrack x acc) s, true) := by
  simp [importData, importTracksLoop_append failsT ts1 t ts2 s hf h1]

/-- The record at id "bad" is rejected by the device. -/
def failsBad : Track → Bool := fun t => t.id == "bad"

/-- A three-record snapshot whose middle record fails to write. -/
def c5Snap : ImportSnapshot :=
  { tracks := some [mkTrack "t1" "a", mkTrack "bad" "b", mkTrack "t3" "c"]
    playlists := some [] }

/-- C5 counterexample: with the middle record rejected, `importData`
throws (rather than collecting the failure) and the record after the bad
one is never written, while the record before it stays written. -/
theorem c5_counterexample :
    (importData failsBad (fun _ => false) c5Snap emptyStore).2 = true ∧
    getTrack "t3" (importData failsBad (fun _ => false) c5Snap
      emptyStore).1 = none ∧
    getTrack "t1" (importData failsBad (fun _ => false) c5Snap
      emptyStore).1 = some (mkTrack "t1" "a") := by
  refine ⟨?_, ?_, ?_⟩ <;> decide

/-- Witness for C5's amended statement at the same concrete snapshot. -/
theorem c5_import_witness :
    importData failsBad (fun _ => false) c5Snap emptyStore
      = (saveTrack (mkTrack "t1" "a") emptyStore, true) :=
  c5_import_amended failsBad (fun _ => false) [mkTrack "t1" "a"]
    (mkTrack "bad" "b") [mkTrack "t3" "c"] (some []) emptyStore
    (by decide) (by decide)

/-! Section: C6 -/

theorem store_ext (a b : Store) (h1 : a.tracks = b.tracks)
    (h2 : a.playlists = b.playlists) : a = b := by
  cases a
  cases b
  simp_all

theorem importTracksLoop_ok (ts : List Track) (s : Store) :
    importTracksLoop (fun _ => false) ts s =
      (ts.foldl (fun acc x => saveTrack x acc) s, false) := by
  induction ts generalizing s with
  | nil => simp [importTracksLoop]
  | cons y ys ih => simp [importTracksLoop, ih]

theorem importPlaylistsLoop_ok (ps : List Playlist) (s : Store) :
    importPlaylistsLoop (fun _ => false) ps s =
      (ps.foldl (fun acc x => savePlaylist x acc) s, false) := by
  induction ps generalizing s with
  | nil => simp [importPlaylistsLoop]
  | cons y ys ih => simp [importPlaylistsLoop, ih]

theorem foldl_saveTrack_tracks (ts : List Track) (s : Store) :
    (ts.foldl (fun acc x => saveTrack x acc) s).tracks =
      ts.foldl (fun acc x => putByKey Track.id x acc) s.tracks := by
  induction ts generalizing s with
  | nil => rfl
  | cons y ys ih =>
    simp only [List.foldl_cons]
    rw [ih]
    rfl

theorem foldl_saveTrack_playlists (ts : List Track) (s : Store) :
    (ts.foldl (fun acc x => saveTrack x acc) s).playlists = s.playlists := by
  induction ts generalizing s with
  | nil => rfl
  | cons y ys ih =>
    simp only [List.foldl_cons]
    rw [ih]
    rfl

theorem foldl_savePlaylist_playlists (ps : List Playlist) (s : Store) :
    (ps.foldl (fun acc x => savePlaylist x acc) s).playlists =
      ps.foldl (fun acc x => putByKey Playlist.id x acc) s.playlists := by
  induction ps generalizing s with
  | nil => rfl
  | cons y ys ih =>
    simp only [List.foldl_cons]
    rw [ih]
    rfl

theorem foldl_savePlaylist_tracks (ps : List Playlist) (s : Store) :
    (ps.foldl (fun acc x => savePlaylist x acc) s).tracks = s.tracks := by
  induction ps generalizing s with
  | nil => rfl
  | cons y ys ih =>
    simp only [List.foldl_cons]
    rw [ih]
    rfl

theorem putByKey_notMem {α : Type} (key : α → String) (a : α) (l : List α)
    (h : ∀ x ∈ l, key x ≠ key a) : putByKey key a l = l ++ [a] := by
  have hany : l.any (fun x => key x == key a) = false := by
    by_cases hb : l.any (fun x => key x == key a) = true
    · exfalso
      obtain ⟨x, hx, hkey⟩ := List.any_eq_true.mp hb
      exact h x hx (by simpa using hkey)
    · simpa using hb
  simp [putByKey, hany]

theorem foldl_putByKey_nodup {α : Type} (key : α → String) :
    ∀ (ts acc : List α), ((acc ++ ts).map key).Nodup →
      ts.foldl (fun a x => putByKey key x a) acc = acc ++ ts := by
  intro ts
  induction ts with
  | nil =>
    intro acc _
    simp
  | cons y ys ih =>
    intro acc h
    have hy : ∀ x ∈ acc, key x ≠ key y := by
      have hnd := h
      rw [List.map_append, List.nodup_append] at hnd
      obtain ⟨-, -, hdisj⟩ := hnd
      intro x hx heq
      refine hdisj (List.mem_map_of_mem key hx) ?_
      rw [heq]
      exact List.mem_map_of_mem key (List.mem_cons_self y ys)
    have hstep : ((acc ++ [y]) ++ ys).map key |>.Nodup := by
      simpa using h
    rw [List.foldl_cons, putByKey_notMem key y acc hy, ih (acc ++ [y]) hstep]
    simp

/-- C6: exporting the whole store and importing the document into an empty
store (with every device write succeeding) reproduces exactly the same
tracks and playlists, and reports no failure. -/
theorem c6_roundtrip (now : Int) (s : Store)
    (ht : (s.tracks.map Track.id).Nodup)
    (hp : (s.playlists.map Playlist.id).Nodup) :
    importData (fun _ => false) (fun _ => false)
      (snapshotOfDoc (exportData now s)) emptyStore = (s, false) := by
  simp only [snapshotOfDoc, exportData, importData, importTracksLoop_ok,
    importPlaylistsLoop_ok, Bool.false_eq_true, if_false]
  refine Prod.ext ?_ rfl
  apply store_ext
  · rw [foldl_savePlaylist_tracks, foldl_saveTrack_tracks]
    have h0 : (([] ++ s.tracks).map Track.id).Nodup := by simpa using ht
    have h1 := foldl_putByKey_nodup Track.id s.tracks [] h0
    rw [List.nil_append] at h1
    exact h1
  · rw [foldl_savePlaylist_playlists, foldl_saveTrack_playlists]
    have h0 : (([] ++ s.playlists).map Playlist.id).Nodup := by simpa using hp
    have h1 := foldl_putByKey_nodup Playlist.id s.playlists [] h0
    rw [List.nil_append] at h1
    exact h1

/-- A sample playlist. -/
def samplePlaylist : Playlist :=
  { id := "p1"
    name := "list one"
    description := none
    tracks := [mkTrack "t1" "a"]
    coverImage := none
    createdDate := 0
    isPublic := true }

/-- A store with two tracks and one playlist. -/
def c6Store : Store :=
  { tracks := [mkTrack "t1" "a", mkTrack "t2" "b"]
    playlists := [samplePlaylist] }

/-- Witness for C6 at a concrete store. -/
theorem c6_roundtrip_witness :
    importData (fun _ => false) (fun _ => false)
      (snapshotOfDoc (exportData 0 c6Store)) emptyStore = (c6Store, false) :=
  c6_roundtrip 0 c6Store (by decide) (by decide)

/-! Section: C4 -/

/-- Two distinct tracks sharing the same title (equal sort keys). -/
def c4TrackA : Track := mkTrack "a" "same title"

/-- Second track with the same title but a different id. -/
def c4TrackB : Track := mkTrack "b" "same title"

/-- C4: the sort comparator of the `tracks` computed signal never returns
0; on two distinct tracks with equal sort keys it answers `-1` for both
argument orders, so it is not a consistent comparison function and the
engine-defined tie order it induces cannot be the required stable
input-order tie-breaking. -/
theorem c4_comparator_inconsistent :
    cmpTracks SortBy.title SortOrder.asc c4TrackA c4TrackB = -1 ∧
    cmpTracks SortBy.title SortOrder.asc c4TrackB c4TrackA = -1 ∧
    c4TrackA ≠ c4TrackB := by
  have hirr : ¬("same title".toLower < "same title".toLower) := lt_irrefl _
  refine ⟨?_, ?_, by decide⟩ <;>
    simp [cmpTracks, keyOf, sortValGt, c4TrackA, c4TrackB, mkTrack, hirr]
